import Mathlib

/-!
Verification development for the SolveAssist core.

This file gives a shallow embedding, in Lean 4, of the algorithmic core of the
SolveAssist repository (`backend/math_verifier.py` and `backend/solver.py`):

* the expression-notation normalizer of `MathVerifier.parse_expression`;
* the parse wrapper (non-string / empty-string handling) around the external
  sympy expression reader, which is modelled as an abstract partial function;
* the verification operations `verify_arithmetic`, `verify_equation_solution`,
  `verify_derivative`, `verify_integral` and `check_quadratic_formula`.
  The external sympy layer is modelled as follows: for the value-level
  operations (arithmetic, equation, quadratic) a parsed expression is
  represented by an element of an abstract value domain `K`, and the check
  `simplify(a - b) == 0` is modelled by decidable equality on `K`; the
  symbolic `solve` call, which can return any list of solutions or raise,
  is an explicit function parameter returning `Option (List K)`.  For the
  calculus operations (derivative, integral) expressions are represented by
  a polynomial expression tree `SymExpr`, symbolic differentiation is the
  usual structural derivative, and `simplify(e) == 0` is modelled by
  "every coefficient of the expanded polynomial is zero";
* the calculation scanner `verify_solution_steps` with its three regular
  expression pattern families, hand-compiled into deterministic matchers;
* the problem classifier `detect_problem_type` of `solver.py`;
* the numbered-step extractor `_extract_steps` of `solver.py`, with its two
  regular expressions (including lazy capture and lookahead) hand-compiled.

Machine strings are modelled as `List Char`; Python's Unicode `\d` and
`str.lower()` are modelled by their ASCII fragments, which agree with Python
on every input exercised by the specification.
-/

/-! ### Character classes -/

/-- The whitespace characters removed by Python `str.strip()` and matched by
the regex class `\s` (ASCII fragment of Python's whitespace set). -/
def pySpace (c : Char) : Bool :=
  c = ' ' || c = '\t' || c = '\n' || c = '\r' || c = '\x0b' || c = '\x0c'

/-- A digit and an ASCII letter can never be the same character. -/
theorem isDigit_eq_false_of_isAlpha {c : Char} (h : c.isAlpha = true) :
    c.isDigit = false := by
  revert h
  simp only [Char.isAlpha, Char.isUpper, Char.isLower, Char.isDigit, Bool.or_eq_true,
    Bool.and_eq_true, decide_eq_true_eq, Bool.and_eq_false_iff, decide_eq_false_iff_not,
    not_le, ge_iff_le, UInt32.le_def, UInt32.lt_def, BitVec.le_def, BitVec.lt_def,
    show (UInt32.toBitVec 48).toNat = 48 from rfl, show (UInt32.toBitVec 57).toNat = 57 from rfl,
    show (UInt32.toBitVec 65).toNat = 65 from rfl, show (UInt32.toBitVec 90).toNat = 90 from rfl,
    show (UInt32.toBitVec 97).toNat = 97 from rfl, show (UInt32.toBitVec 122).toNat = 122 from rfl]
  intro h
  omega

/-! ### The expression normalizer (`MathVerifier.parse_expression`, lines 44-63)

The Python code strips the input, performs eight sequential `str.replace`
passes over single-character glyphs, and finally runs
`re.sub(r'(\d)([a-zA-Z])', r'\1*\2', s)` to insert explicit multiplication
between a digit and an immediately following letter. -/

/-- Python `str.strip()` on a character list. -/
def pyStrip (l : List Char) : List Char :=
  ((l.dropWhile pySpace).reverse.dropWhile pySpace).reverse

/-- One `str.replace(old, new)` pass for a single-character pattern `old`:
every occurrence of `old` is replaced by `new`. -/
def replOne (old : Char) (new : List Char) (l : List Char) : List Char :=
  l.flatMap fun c => if c = old then new else [c]

/-- The replacement table of `parse_expression` (in source order). -/
def replacements : List (Char × List Char) :=
  [('^', ['*', '*']), ('×', ['*']), ('÷', ['/']), ('√', ['s', 'q', 'r', 't']),
   ('²', ['*', '*', '2']), ('³', ['*', '*', '3']), ('π', ['p', 'i']), ('∞', ['o', 'o'])]

/-- The eight sequential replacement passes of `parse_expression`, i.e. the
loop `for old, new in replacements: expr_str = expr_str.replace(old, new)`
unrolled over the table (the fold form is `applyRepls_foldl` below). -/
def applyRepls (l : List Char) : List Char :=
  replOne '∞' ['o', 'o'] (replOne 'π' ['p', 'i'] (replOne '³' ['*', '*', '3']
    (replOne '²' ['*', '*', '2'] (replOne '√' ['s', 'q', 'r', 't'] (replOne '÷' ['/']
      (replOne '×' ['*'] (replOne '^' ['*', '*'] l)))))))

/-- Folding the replacement table in source order is exactly `applyRepls`. -/
theorem applyRepls_foldl (l : List Char) :
    replacements.foldl (fun acc p => replOne p.1 p.2 acc) l = applyRepls l := by
  simp only [applyRepls, replacements, List.foldl_cons, List.foldl_nil]

/-- `re.sub(r'(\d)([a-zA-Z])', r'\1*\2', s)`: scanning left to right over
non-overlapping digit-letter pairs, a `*` is inserted between the pair and
scanning resumes after the letter. -/
def insertStar : List Char → List Char
  | [] => []
  | [c] => [c]
  | c1 :: c2 :: rest =>
    if c1.isDigit && c2.isAlpha then c1 :: '*' :: c2 :: insertStar rest
    else c1 :: insertStar (c2 :: rest)

/-- The full normalization step of `parse_expression`: strip, glyph
replacements, explicit-multiplication insertion. -/
def normalizeChars (l : List Char) : List Char :=
  insertStar (applyRepls (pyStrip l))

/-- String-level wrapper of the normalization step. -/
def normalizeNotation (s : String) : String :=
  String.mk (normalizeChars s.data)

/-! Basic facts about the eight replacement passes.  `applyRepls` is a
composition of eight `flatMap`s over single-character patterns whose
replacement texts contain none of the replaced glyphs, so it coincides with a
single character-by-character expansion `glyphFn`. -/

/-- The per-character expansion realised by the eight replacement passes. -/
def glyphFn (c : Char) : List Char :=
  if c = '^' then ['*', '*']
  else if c = '×' then ['*']
  else if c = '÷' then ['/']
  else if c = '√' then ['s', 'q', 'r', 't']
  else if c = '²' then ['*', '*', '2']
  else if c = '³' then ['*', '*', '3']
  else if c = 'π' then ['p', 'i']
  else if c = '∞' then ['o', 'o']
  else [c]

theorem applyRepls_append (l1 l2 : List Char) :
    applyRepls (l1 ++ l2) = applyRepls l1 ++ applyRepls l2 := by
  simp [applyRepls, replOne]

theorem applyRepls_singleton (c : Char) : applyRepls [c] = glyphFn c := by
  by_cases h1 : c = '^'
  · subst h1; decide
  by_cases h2 : c = '×'
  · subst h2; decide
  by_cases h3 : c = '÷'
  · subst h3; decide
  by_cases h4 : c = '√'
  · subst h4; decide
  by_cases h5 : c = '²'
  · subst h5; decide
  by_cases h6 : c = '³'
  · subst h6; decide
  by_cases h7 : c = 'π'
  · subst h7; decide
  by_cases h8 : c = '∞'
  · subst h8; decide
  simp [applyRepls, replOne, glyphFn, h1, h2, h3, h4, h5, h6, h7, h8]

theorem applyRepls_flat (l : List Char) : applyRepls l = l.flatMap glyphFn := by
  induction l with
  | nil => rfl
  | cons c t ih =>
    have : (c :: t) = [c] ++ t := rfl
    rw [this, applyRepls_append, applyRepls_singleton, ih]
    simp

/-- The eight glyphs rewritten away by the replacement passes. -/
def specialChars : List Char := ['^', '×', '÷', '√', '²', '³', 'π', '∞']

theorem glyphFn_ne_nil (a : Char) : glyphFn a ≠ [] := by
  unfold glyphFn
  split_ifs <;> simp

theorem glyphFn_not_special {a x : Char} (hx : x ∈ glyphFn a) : x ∉ specialChars := by
  unfold glyphFn at hx
  split_ifs at hx with h1 h2 h3 h4 h5 h6 h7 h8
  · simp only [List.mem_cons, List.not_mem_nil, or_false] at hx
    rcases hx with rfl | rfl <;> decide
  · simp only [List.mem_cons, List.not_mem_nil, or_false] at hx
    rcases hx with rfl; decide
  · simp only [List.mem_cons, List.not_mem_nil, or_false] at hx
    rcases hx with rfl; decide
  · simp only [List.mem_cons, List.not_mem_nil, or_false] at hx
    rcases hx with rfl | rfl | rfl | rfl <;> decide
  · simp only [List.mem_cons, List.not_mem_nil, or_false] at hx
    rcases hx with rfl | rfl | rfl <;> decide
  · simp only [List.mem_cons, List.not_mem_nil, or_false] at hx
    rcases hx with rfl | rfl | rfl <;> decide
  · simp only [List.mem_cons, List.not_mem_nil, or_false] at hx
    rcases hx with rfl | rfl <;> decide
  · simp only [List.mem_cons, List.not_mem_nil, or_false] at hx
    rcases hx with rfl | rfl <;> decide
  · simp only [List.mem_cons, List.not_mem_nil, or_false] at hx
    rcases hx with rfl
    simp [specialChars, h1, h2, h3, h4, h5, h6, h7, h8]

theorem glyphFn_of_not_special {a : Char} (ha : a ∉ specialChars) : glyphFn a = [a] := by
  simp only [specialChars, List.mem_cons, List.not_mem_nil, or_false, not_or] at ha
  obtain ⟨h1, h2, h3, h4, h5, h6, h7, h8⟩ := ha
  simp [glyphFn, h1, h2, h3, h4, h5, h6, h7, h8]

theorem applyRepls_not_special {l : List Char} {x : Char} (hx : x ∈ applyRepls l) :
    x ∉ specialChars := by
  rw [applyRepls_flat, List.mem_flatMap] at hx
  obtain ⟨a, _, hxa⟩ := hx
  exact glyphFn_not_special hxa

theorem applyRepls_of_not_special {l : List Char} (h : ∀ x ∈ l, x ∉ specialChars) :
    applyRepls l = l := by
  rw [applyRepls_flat]
  induction l with
  | nil => rfl
  | cons c t ih =>
    rw [List.flatMap_cons, glyphFn_of_not_special (h c (by simp)),
      ih fun x hx => h x (by simp [hx])]
    rfl

/-- Every character produced by `glyphFn` from a non-whitespace character is
itself non-whitespace. -/
theorem glyphFn_not_space {a x : Char} (ha : pySpace a = false) (hx : x ∈ glyphFn a) :
    pySpace x = false := by
  unfold glyphFn at hx
  split_ifs at hx with h1 h2 h3 h4 h5 h6 h7 h8 <;>
    simp only [List.mem_cons, List.not_mem_nil, or_false] at hx
  · rcases hx with rfl | rfl <;> decide
  · rcases hx with rfl; decide
  · rcases hx with rfl; decide
  · rcases hx with rfl | rfl | rfl | rfl <;> decide
  · rcases hx with rfl | rfl | rfl <;> decide
  · rcases hx with rfl | rfl | rfl <;> decide
  · rcases hx with rfl | rfl <;> decide
  · rcases hx with rfl | rfl <;> decide
  · rcases hx with rfl; exact ha

/-! Facts about `pyStrip` and the ends of the normalized string. -/

theorem dropWhile_eq_self_of_head {p : Char → Bool} {l : List Char}
    (h : ∀ c, l.head? = some c → p c = false) : l.dropWhile p = l := by
  cases l with
  | nil => rfl
  | cons c t =>
    rw [List.dropWhile_cons, h c rfl]
    simp

theorem pyStrip_eq_self_of_ends {l : List Char}
    (hh : ∀ c, l.head? = some c → pySpace c = false)
    (hl : ∀ c, l.getLast? = some c → pySpace c = false) : pyStrip l = l := by
  unfold pyStrip
  rw [dropWhile_eq_self_of_head hh]
  rw [dropWhile_eq_self_of_head (p := pySpace) (l := l.reverse)
    (fun c hc => hl c (by rwa [List.head?_reverse] at hc))]
  exact List.reverse_reverse l

theorem head?_dropWhile_not_space {l : List Char} {c : Char}
    (hc : (l.dropWhile pySpace).head? = some c) : pySpace c = false := by
  have h := List.head?_dropWhile_not pySpace l
  rwa [hc] at h

theorem getLast?_of_isSuffix {l s : List Char} {c : Char} (hs : l <:+ s)
    (hc : l.getLast? = some c) : s.getLast? = some c := by
  obtain ⟨t, rfl⟩ := hs
  rw [List.getLast?_append, hc]
  rfl

theorem getLast?_pyStrip_not_space {l : List Char} {c : Char}
    (hc : (pyStrip l).getLast? = some c) : pySpace c = false := by
  unfold pyStrip at hc
  rw [List.getLast?_reverse] at hc
  exact head?_dropWhile_not_space hc

theorem head?_pyStrip_not_space {l : List Char} {c : Char}
    (hc : (pyStrip l).head? = some c) : pySpace c = false := by
  unfold pyStrip at hc
  rw [List.head?_reverse] at hc
  have hsuf : ((l.dropWhile pySpace).reverse.dropWhile pySpace) <:+
      (l.dropWhile pySpace).reverse := List.dropWhile_suffix pySpace
  have := getLast?_of_isSuffix hsuf hc
  rw [List.getLast?_reverse] at this
  exact head?_dropWhile_not_space this

/-! The ends of `applyRepls l` are non-whitespace whenever the ends of `l`
are. -/

theorem mem_of_head?_eq {α : Type} {l : List α} {a : α} (h : l.head? = some a) : a ∈ l := by
  cases l with
  | nil => cases h
  | cons x xs =>
    simp only [List.head?_cons, Option.some.injEq] at h
    simp [h]

theorem mem_of_getLast?_eq {α : Type} {l : List α} {a : α} (h : l.getLast? = some a) :
    a ∈ l := by
  cases l with
  | nil => cases h
  | cons x xs =>
    have hne : x :: xs ≠ [] := by simp
    rw [List.getLast?_eq_getLast _ hne, Option.some.injEq] at h
    exact h ▸ List.getLast_mem hne

theorem head?_applyRepls_not_space {l : List Char}
    (hh : ∀ c, l.head? = some c → pySpace c = false) :
    ∀ c, (applyRepls l).head? = some c → pySpace c = false := by
  intro c hc
  cases l with
  | nil => simp [applyRepls_flat] at hc
  | cons a t =>
    rw [applyRepls_flat, List.flatMap_cons, List.head?_append] at hc
    obtain ⟨x, xs, hg⟩ : ∃ x xs, glyphFn a = x :: xs := by
      cases hga : glyphFn a with
      | nil => exact absurd hga (glyphFn_ne_nil a)
      | cons x xs => exact ⟨x, xs, rfl⟩
    rw [hg] at hc
    simp only [List.head?_cons, Option.or_some] at hc
    rw [Option.some.injEq] at hc
    subst hc
    exact glyphFn_not_space (hh a rfl) (by rw [hg]; exact List.mem_cons_self x xs)

theorem getLast?_applyRepls_not_space {l : List Char}
    (hl : ∀ c, l.getLast? = some c → pySpace c = false) :
    ∀ c, (applyRepls l).getLast? = some c → pySpace c = false := by
  intro c hc
  rcases List.eq_nil_or_concat l with rfl | ⟨t, a, rfl⟩
  · simp [applyRepls_flat] at hc
  · rw [List.concat_eq_append, applyRepls_append, List.getLast?_append] at hc
    have ha : pySpace a = false := hl a (by simp)
    obtain ⟨y, hy⟩ : ∃ y, (applyRepls [a]).getLast? = some y := by
      have hne : applyRepls [a] ≠ [] := by
        rw [applyRepls_singleton]; exact glyphFn_ne_nil a
      cases hg : (applyRepls [a]).getLast? with
      | none => exact absurd (List.getLast?_eq_none_iff.mp hg) hne
      | some y => exact ⟨y, rfl⟩
    rw [hy, Option.or_some] at hc
    rw [Option.some.injEq] at hc
    rw [← hc]
    have hmem : y ∈ applyRepls [a] := mem_of_getLast?_eq hy
    rw [applyRepls_singleton] at hmem
    exact glyphFn_not_space ha hmem

/-! Facts about `insertStar`: it preserves the first and last character,
only ever adds the character `*`, leaves strings without digit-letter
adjacencies unchanged, and produces a string without digit-letter
adjacencies — hence it is idempotent. -/

theorem insertStar_head? (l : List Char) : (insertStar l).head? = l.head? := by
  match l with
  | [] => rfl
  | [c] => rfl
  | c1 :: c2 :: rest =>
    rw [insertStar]
    split <;> rfl

theorem insertStar_ne_nil {l : List Char} (h : l ≠ []) : insertStar l ≠ [] := by
  intro hnil
  have := insertStar_head? l
  rw [hnil] at this
  cases l with
  | nil => exact h rfl
  | cons c t => simp at this

theorem getLast?_cons_of_ne_nil {α : Type} {a : α} {l : List α} (h : l ≠ []) :
    (a :: l).getLast? = l.getLast? := by
  cases l with
  | nil => exact absurd rfl h
  | cons b t => exact List.getLast?_cons_cons

theorem insertStar_getLast? (l : List Char) : (insertStar l).getLast? = l.getLast? := by
  induction l using insertStar.induct with
  | case1 => rfl
  | case2 c => rfl
  | case3 c1 c2 rest hcond ih =>
    rw [insertStar, if_pos hcond]
    cases rest with
    | nil => rfl
    | cons r rs =>
      have hne : insertStar (r :: rs) ≠ [] := insertStar_ne_nil (by simp)
      rw [List.getLast?_cons_cons, List.getLast?_cons_cons,
        getLast?_cons_of_ne_nil hne, ih, List.getLast?_cons_cons,
        List.getLast?_cons_cons]
  | case4 c1 c2 rest hcond ih =>
    rw [insertStar, if_neg hcond]
    have hne : insertStar (c2 :: rest) ≠ [] := insertStar_ne_nil (by simp)
    rw [getLast?_cons_of_ne_nil hne, ih, List.getLast?_cons_cons]

theorem mem_insertStar {x : Char} {l : List Char} (hx : x ∈ insertStar l) :
    x ∈ l ∨ x = '*' := by
  induction l using insertStar.induct with
  | case1 => cases hx
  | case2 c =>
    rw [insertStar] at hx
    simp at hx
    simp [hx]
  | case3 c1 c2 rest hcond ih =>
    rw [insertStar, if_pos hcond] at hx
    simp only [List.mem_cons] at hx
    rcases hx with rfl | rfl | rfl | hx
    · simp
    · simp
    · simp
    · rcases ih hx with h | h
      · exact Or.inl (by simp [h])
      · exact Or.inr h
  | case4 c1 c2 rest hcond ih =>
    rw [insertStar, if_neg hcond] at hx
    simp only [List.mem_cons] at hx
    rcases hx with rfl | hx
    · simp
    · rcases ih hx with h | h
      · exact Or.inl (by simp only [List.mem_cons] at h ⊢; tauto)
      · exact Or.inr h

/-- The scan position invariant of `re.sub(r'(\d)([a-zA-Z])', ...)`: a string
has no remaining digit-letter adjacency. -/
def noDA : List Char → Bool
  | c1 :: c2 :: rest => !(c1.isDigit && c2.isAlpha) && noDA (c2 :: rest)
  | _ => true

theorem insertStar_of_noDA {l : List Char} (h : noDA l = true) : insertStar l = l := by
  induction l using insertStar.induct with
  | case1 => rfl
  | case2 c => rfl
  | case3 c1 c2 rest hcond ih =>
    exfalso
    rw [noDA, hcond] at h
    simp at h
  | case4 c1 c2 rest hcond ih =>
    rw [noDA, Bool.and_eq_true] at h
    rw [insertStar, if_neg hcond, ih h.2]

theorem noDA_insertStar (l : List Char) : noDA (insertStar l) = true := by
  induction l using insertStar.induct with
  | case1 => rfl
  | case2 c => rfl
  | case3 c1 c2 rest hcond ih =>
    rw [insertStar, if_pos hcond]
    have hc2 : c2.isAlpha = true := by
      rw [Bool.and_eq_true] at hcond
      exact hcond.2
    have hc2d : c2.isDigit = false := isDigit_eq_false_of_isAlpha hc2
    cases hrest : insertStar rest with
    | nil => simp [noDA]
    | cons r rs =>
      rw [hrest] at ih
      simp only [noDA]
      rw [hc2d, ih]
      simp [show ('*'.isAlpha) = false from by decide,
        show ('*'.isDigit) = false from by decide]
  | case4 c1 c2 rest hcond ih =>
    rw [insertStar, if_neg hcond]
    have hhead : (insertStar (c2 :: rest)).head? = some c2 := insertStar_head? (c2 :: rest)
    cases hrest : insertStar (c2 :: rest) with
    | nil => simp [noDA]
    | cons r rs =>
      rw [hrest] at ih hhead
      simp only [List.head?_cons, Option.some.injEq] at hhead
      rw [noDA, ih]
      simp only [Bool.and_true]
      rw [hhead]
      have hx : (c1.isDigit && c2.isAlpha) = false := by
        cases hxx : (c1.isDigit && c2.isAlpha)
        · rfl
        · exact absurd hxx hcond
      simp [hx]

theorem insertStar_idem (l : List Char) : insertStar (insertStar l) = insertStar l :=
  insertStar_of_noDA (noDA_insertStar l)

/-! Idempotence of the normalization step. -/

theorem head?_normalizeChars_not_space {l : List Char} :
    ∀ c, (normalizeChars l).head? = some c → pySpace c = false := by
  intro c hc
  unfold normalizeChars at hc
  rw [insertStar_head?] at hc
  exact head?_applyRepls_not_space (fun d hd => head?_pyStrip_not_space hd) c hc

theorem getLast?_normalizeChars_not_space {l : List Char} :
    ∀ c, (normalizeChars l).getLast? = some c → pySpace c = false := by
  intro c hc
  unfold normalizeChars at hc
  rw [insertStar_getLast?] at hc
  exact getLast?_applyRepls_not_space (fun d hd => getLast?_pyStrip_not_space hd) c hc

theorem normalizeChars_not_special {l : List Char} :
    ∀ x ∈ normalizeChars l, x ∉ specialChars := by
  intro x hx
  unfold normalizeChars at hx
  rcases mem_insertStar hx with h | rfl
  · exact applyRepls_not_special h
  · decide

theorem normalizeChars_idem (l : List Char) :
    normalizeChars (normalizeChars l) = normalizeChars l := by
  have h1 : pyStrip (normalizeChars l) = normalizeChars l :=
    pyStrip_eq_self_of_ends head?_normalizeChars_not_space getLast?_normalizeChars_not_space
  have h2 : applyRepls (normalizeChars l) = normalizeChars l :=
    applyRepls_of_not_special normalizeChars_not_special
  show insertStar (applyRepls (pyStrip (normalizeChars l))) = normalizeChars l
  rw [h1, h2]
  exact insertStar_idem (applyRepls (pyStrip l))

/-- C4.  The expression normalization step of `parse_expression` — strip,
the eight glyph replacements (`^ × ÷ √ ² ³ π ∞` to `**`, `*`, `/`, `sqrt`,
`**2`, `**3`, `pi`, `oo`), and insertion of `*` between a digit and an
immediately following letter — is idempotent: applying it twice to any input
string yields the same string as applying it once. -/
theorem C4_normalizer_idempotent (s : String) :
    normalizeNotation (normalizeNotation s) = normalizeNotation s := by
  have hdata : ∀ cs : List Char, (String.mk cs).data = cs := fun _ => rfl
  conv_lhs => rw [normalizeNotation, normalizeNotation, hdata, normalizeChars_idem]
  conv_rhs => rw [normalizeNotation]

/-! ### The parse wrapper (`MathVerifier.parse_expression`, lines 35-68)

Python may hand `parse_expression` any runtime value.  The model
distinguishes string values from everything else: for a non-string (whatever
it is) as well as for the empty string the function returns the failure
sentinel `None` before doing any work (line 40-41).  The call to sympy's
`parse_expr` on the normalized text — together with the `except` clause that
converts any parser exception into `None` — is modelled by an abstract
partial parse function `pc : String → Option K`. -/

/-- A Python runtime value passed to `parse_expression`: a string, or any
non-string value (number, `None`, list, ...), whose further identity the
function never inspects. -/
inductive PyVal where
  | pyStr (s : String)
  | nonStr
deriving DecidableEq

/-- Python `str(value)` as used for report fields; the rendering of a
non-string value is abstracted. -/
def pyValStr : PyVal → String
  | PyVal.pyStr s => s
  | PyVal.nonStr => "<non-string value>"

/-- `MathVerifier.parse_expression`: `None` for a non-string or empty input,
otherwise normalization followed by the (abstract, fallible) sympy parse. -/
def parse_expression {K : Type} (pc : String → Option K) : PyVal → Option K
  | PyVal.pyStr s => if s = "" then none else pc (normalizeNotation s)
  | PyVal.nonStr => none

/-- `parse_expression` applied to an honest string argument. -/
def parseStr {K : Type} (pc : String → Option K) (s : String) : Option K :=
  parse_expression pc (PyVal.pyStr s)

/-! ### `verify_arithmetic` (lines 70-99)

The sympy value domain is abstracted to a type `K` with decidable equality:
`simplify(expr)` of an already-parsed expression is the value itself and
`simplify(a - b) == 0` is `a = b`.  `pp` renders a value the way `str(...)`
does.  Every internal fault is caught: in the model all operations are total,
and the only failure source is the parse step. -/

/-- The result dictionary of `verify_arithmetic`.  A key that is absent on
the failure path is an `Option` field holding `none` there. -/
structure ArithResult where
  verified : Bool
  expression : Option String
  claimed : Option String
  actual : Option String
  is_correct : Option Bool
  error : Option String
deriving DecidableEq

/-- The failure dictionary `{'verified': False, 'error': msg}`. -/
def ArithResult.fail (msg : String) : ArithResult :=
  { verified := false, expression := none, claimed := none, actual := none,
    is_correct := none, error := some msg }

/-- `MathVerifier.verify_arithmetic(expression, claimed_result)`. -/
def verify_arithmetic {K : Type} [DecidableEq K] (pp : K → String)
    (pc : String → Option K) (expression claimed_result : PyVal) : ArithResult :=
  match parse_expression pc expression, parse_expression pc claimed_result with
  | some expr, some claimed =>
    let result := expr
    let ic : Bool := decide (result = claimed)
    { verified := true,
      expression := some (pyValStr expression),
      claimed := some (pyValStr claimed_result),
      actual := some (pp result),
      is_correct := some ic,
      error := if ic then none
               else some ("Expected " ++ pp result ++ ", got " ++ pyValStr claimed_result) }
  | _, _ => ArithResult.fail "Could not parse expression"

/-! ### `verify_equation_solution` (lines 101-152)

`solve(Eq(left, right), var)` may return any list of solutions, or raise;
it is modelled by a function argument `solveFn` taking the variable name and
the two parsed sides and returning `Option (List K)` (`none` = the call
raised, text of the caught exception abstracted). -/

/-- The result dictionary of `verify_equation_solution`. -/
structure EqSolResult where
  verified : Bool
  equation : Option String
  varName : Option String
  claimed_solution : Option String
  correct_solutions : Option (List String)
  is_correct : Option Bool
  error : Option String
deriving DecidableEq

/-- The failure dictionary `{'verified': False, 'error': msg}`. -/
def EqSolResult.fail (msg : String) : EqSolResult :=
  { verified := false, equation := none, varName := none, claimed_solution := none,
    correct_solutions := none, is_correct := none, error := some msg }

/-- Python `equation_str.split('=', 1)`: the text before the first `=` and
the text after it. -/
def splitOnceEq (s : List Char) : List Char × List Char :=
  (s.takeWhile (fun c => !(c == '=')), (s.dropWhile (fun c => !(c == '='))).drop 1)

/-- `MathVerifier.verify_equation_solution(equation_str, variable, claimed_solution)`. -/
def verify_equation_solution {K : Type} [DecidableEq K] (pp : K → String)
    (pc : String → Option K) (solveFn : String → K → K → Option (List K))
    (equation_str variable_name claimed_solution : String) : EqSolResult :=
  if !(equation_str.data.contains '=') then
    EqSolResult.fail "No equals sign found"
  else
    let lr := splitOnceEq equation_str.data
    match parseStr pc (String.mk (pyStrip lr.1)), parseStr pc (String.mk (pyStrip lr.2)) with
    | some left_expr, some right_expr =>
      match solveFn variable_name left_expr right_expr with
      | none => EqSolResult.fail "solve raised an exception"
      | some solutions =>
        match parseStr pc claimed_solution with
        | none => EqSolResult.fail "Could not parse claimed solution"
        | some claimed =>
          let ic : Bool := solutions.any fun sol => decide (sol = claimed)
          { verified := true,
            equation := some equation_str,
            varName := some variable_name,
            claimed_solution := some claimed_solution,
            correct_solutions := some (solutions.map pp),
            is_correct := some ic,
            error := if ic then none
                     else some ("Correct solution(s): " ++
                       String.intercalate ", " (solutions.map pp)) }
    | _, _ => EqSolResult.fail "Could not parse equation"

/-! ### `check_quadratic_formula` (lines 297-347)

The numeric domain additionally needs field operations and a square root; the
sympy `sqrt` is a function argument `sqrtK`.  A claimed solution that fails
to parse makes `sol - claimed_val` raise inside the loop, so the whole call
degenerates to the failure dictionary; `quadEntries` models the loop with
this all-or-nothing behaviour. -/

/-- One entry of the `verification` list of `check_quadratic_formula`. -/
structure QuadEntry where
  claimed : String
  is_correct : Bool
deriving DecidableEq

/-- The result dictionary of `check_quadratic_formula`. -/
structure QuadResult where
  verified : Bool
  a : Option String
  b : Option String
  c : Option String
  discriminant : Option String
  correct_solutions : Option (List String)
  verification : Option (List QuadEntry)
  all_correct : Option Bool
  error : Option String
deriving DecidableEq

/-- The failure dictionary `{'verified': False, 'error': msg}`. -/
def QuadResult.fail (msg : String) : QuadResult :=
  { verified := false, a := none, b := none, c := none, discriminant := none,
    correct_solutions := none, verification := none, all_correct := none,
    error := some msg }

/-- The `for claimed in claimed_solutions` loop: each claimed string is
parsed and compared against both computed roots; a parse failure anywhere
aborts the whole call (the comparison against `None` raises). -/
def quadEntries {K : Type} [DecidableEq K] (pc : String → Option K)
    (correct : List K) : List String → Option (List QuadEntry)
  | [] => some []
  | s :: rest =>
    match parseStr pc s with
    | none => none
    | some v =>
      match quadEntries pc correct rest with
      | none => none
      | some es =>
        some ({ claimed := s, is_correct := correct.any fun sol => decide (sol = v) } :: es)

/-- `MathVerifier.check_quadratic_formula(a, b, c, claimed_solutions)`. -/
def check_quadratic_formula {K : Type} [Field K] [DecidableEq K] (pp : K → String)
    (sqrtK : K → K) (pc : String → Option K) (a b c : String)
    (claimed_solutions : List String) : QuadResult :=
  match parseStr pc a, parseStr pc b, parseStr pc c with
  | some a_val, some b_val, some c_val =>
    let discriminant := b_val ^ 2 - 4 * a_val * c_val
    let x1 := (-b_val + sqrtK discriminant) / (2 * a_val)
    let x2 := (-b_val - sqrtK discriminant) / (2 * a_val)
    let correct_solutions := [x1, x2]
    match quadEntries pc correct_solutions claimed_solutions with
    | none => QuadResult.fail "could not parse a claimed solution"
    | some results =>
      { verified := true,
        a := some a, b := some b, c := some c,
        discriminant := some (pp discriminant),
        correct_solutions := some (correct_solutions.map pp),
        verification := some results,
        all_correct := some (results.all fun r => r.is_correct),
        error := none }
  | _, _, _ => QuadResult.fail "could not parse a coefficient"

/-- C7.  `parse_expression` returns the failure sentinel `None` immediately
for any non-string input and for the empty string, raising nothing (the model
is total); consequently `verify_arithmetic` on such an input returns the
failure dictionary `verified=false` with the parse error message instead of
raising. -/
theorem C7_parse_failure_sentinel :
    (∀ (K : Type) (pc : String → Option K),
      parse_expression pc PyVal.nonStr = none) ∧
    (∀ (K : Type) (pc : String → Option K),
      parse_expression pc (PyVal.pyStr "") = none) ∧
    (∀ (K : Type) [DecidableEq K] (pp : K → String) (pc : String → Option K) (v : PyVal),
      verify_arithmetic pp pc PyVal.nonStr v = ArithResult.fail "Could not parse expression") ∧
    (∀ (K : Type) [DecidableEq K] (pp : K → String) (pc : String → Option K) (v : PyVal),
      verify_arithmetic pp pc (PyVal.pyStr "") v = ArithResult.fail "Could not parse expression") := by
  refine ⟨fun K pc => rfl, fun K pc => by simp [parse_expression], ?_, ?_⟩
  · intro K _ pp pc v
    unfold verify_arithmetic
    rw [show parse_expression pc PyVal.nonStr = none from rfl]
  · intro K _ pp pc v
    unfold verify_arithmetic
    rw [show parse_expression pc (PyVal.pyStr "") = none from by simp [parse_expression]]

/-- C2.  For an equation text containing `=` whose two sides parse, when the
symbolic solver returns a solution list (in particular the empty one), the
result is a non-failure: `verified=true`, `correct_solutions` renders the
returned list, and `is_correct` is the logical OR over the returned solutions
of equivalence with the claimed solution — so an empty solution set yields
`is_correct=false` and `correct_solutions=[]`. -/
theorem C2_equation_empty_solution_set :
    ∀ (K : Type) [DecidableEq K] (pp : K → String) (pc : String → Option K)
      (solveFn : String → K → K → Option (List K))
      (eqs var cs : String) (le re claimed : K) (sols : List K),
      eqs.data.contains '=' = true →
      parseStr pc (String.mk (pyStrip (splitOnceEq eqs.data).1)) = some le →
      parseStr pc (String.mk (pyStrip (splitOnceEq eqs.data).2)) = some re →
      solveFn var le re = some sols →
      parseStr pc cs = some claimed →
      (verify_equation_solution pp pc solveFn eqs var cs).verified = true ∧
      (verify_equation_solution pp pc solveFn eqs var cs).correct_solutions =
        some (sols.map pp) ∧
      (verify_equation_solution pp pc solveFn eqs var cs).is_correct =
        some (sols.any fun sol => decide (sol = claimed)) ∧
      (sols = [] →
        (verify_equation_solution pp pc solveFn eqs var cs).is_correct = some false ∧
        (verify_equation_solution pp pc solveFn eqs var cs).correct_solutions = some []) := by
  intro K _ pp pc solveFn eqs var cs le re claimed sols hcont h1 h2 hsolve h3
  have hres : verify_equation_solution pp pc solveFn eqs var cs =
      { verified := true,
        equation := some eqs,
        varName := some var,
        claimed_solution := some cs,
        correct_solutions := some (sols.map pp),
        is_correct := some (sols.any fun sol => decide (sol = claimed)),
        error := if sols.any fun sol => decide (sol = claimed) then none
                 else some ("Correct solution(s): " ++
                   String.intercalate ", " (sols.map pp)) } := by
    unfold verify_equation_solution
    rw [hcont]
    simp only [Bool.not_true, Bool.false_eq_true, if_false]
    rw [h1, h2]
    dsimp only
    rw [hsolve]
    dsimp only
    rw [h3]
  refine ⟨by rw [hres], by rw [hres], by rw [hres], fun hnil => ?_⟩
  subst hnil
  rw [hres]
  exact ⟨rfl, rfl⟩

/-! Auxiliary facts for the quadratic check. -/

/-- Parse a list of claimed-solution strings, failing if any entry fails
(the value-list companion of `quadEntries`). -/
def parseAll {K : Type} (pc : String → Option K) : List String → Option (List K)
  | [] => some []
  | s :: rest =>
    match parseStr pc s, parseAll pc rest with
    | some v, some vs => some (v :: vs)
    | _, _ => none

theorem parseAll_length {K : Type} (pc : String → Option K) :
    ∀ (cls : List String) (vals : List K), parseAll pc cls = some vals →
      cls.length = vals.length := by
  intro cls
  induction cls with
  | nil =>
    intro vals h
    simp only [parseAll, Option.some.injEq] at h
    rw [← h]
    rfl
  | cons s rest ih =>
    intro vals h
    simp only [parseAll] at h
    cases hp : parseStr pc s with
    | none => rw [hp] at h; cases h
    | some v =>
      rw [hp] at h
      cases hr : parseAll pc rest with
      | none => rw [hr] at h; cases h
      | some vs =>
        rw [hr] at h
        simp only [Option.some.injEq] at h
        rw [← h]
        simp [ih vs hr]

theorem quadEntries_of_parseAll {K : Type} [DecidableEq K] (pc : String → Option K)
    (correct : List K) :
    ∀ (cls : List String) (vals : List K), parseAll pc cls = some vals →
      quadEntries pc correct cls =
        some ((cls.zip vals).map fun p =>
          { claimed := p.1, is_correct := correct.any fun sol => decide (sol = p.2) }) := by
  intro cls
  induction cls with
  | nil =>
    intro vals h
    simp only [parseAll, Option.some.injEq] at h
    rw [← h]
    rfl
  | cons s rest ih =>
    intro vals h
    simp only [parseAll] at h
    cases hp : parseStr pc s with
    | none => rw [hp] at h; cases h
    | some v =>
      rw [hp] at h
      cases hr : parseAll pc rest with
      | none => rw [hr] at h; cases h
      | some vs =>
        rw [hr] at h
        simp only [Option.some.injEq] at h
        rw [← h]
        simp only [quadEntries, hp, hr, ih vs hr]
        rfl

theorem zip_all_snd {α β : Type} (P : β → Bool) :
    ∀ (l1 : List α) (l2 : List β), l1.length = l2.length →
      (((l1.zip l2).all fun p => P p.2) = true ↔ ∀ v ∈ l2, P v = true) := by
  intro l1
  induction l1 with
  | nil =>
    intro l2 h
    cases l2 with
    | nil => simp
    | cons b bs => cases h
  | cons a as ih =>
    intro l2 h
    cases l2 with
    | nil => cases h
    | cons b bs =>
      simp only [List.length_cons, Nat.succ.injEq] at h
      simp [List.zip_cons_cons, List.all_cons, ih bs h]

theorem all_map_general {α β : Type} (f : α → β) (p : β → Bool) (l : List α) :
    (l.map f).all p = l.all fun a => p (f a) := by
  induction l with
  | nil => rfl
  | cons x xs ih => simp [List.all_cons, ih]

theorem all_congr_mem {α : Type} {p q : α → Bool} {l : List α}
    (h : ∀ a ∈ l, p a = q a) : l.all p = l.all q := by
  induction l with
  | nil => rfl
  | cons x xs ih =>
    simp only [List.all_cons, h x (by simp)]
    rw [ih fun a ha => h a (by simp [ha])]

/-- Concrete instantiation pieces for the quadratic examples: the literal
table models sympy's parsing of the small integer numerals that appear in the
specification's example. -/
def pcQ : String → Option ℚ := fun s =>
  if s = "1" then some 1
  else if s = "-5" then some (-5)
  else if s = "6" then some 6
  else if s = "2" then some 2
  else if s = "3" then some 3
  else if s = "4" then some 4
  else none

/-- Value rendering for the concrete quadratic examples (the reports render
values with `str(...)`; the text itself is irrelevant to the claims). -/
def ppQ : ℚ → String := fun _ => "<rational>"

/-- Square root on `ℚ`, exact on perfect squares — the fragment of sympy's
`sqrt` exercised by the quadratic example (discriminant `1`). -/
def ratSqrt (q : ℚ) : ℚ := (Nat.sqrt q.num.toNat : ℚ) / (Nat.sqrt q.den : ℚ)

/-- C5.  `check_quadratic_formula` computes the discriminant `b² - 4ac` and
the roots `(-b ± sqrt D) / (2a)`; each claimed entry is marked correct
exactly when its value equals one of the two roots, and `all_correct` holds
exactly when every claimed value is one of the two roots.  In particular
`("1", "-5", "6", ["2", "3"])` gives `all_correct = true` and
`("1", "-5", "6", ["2", "4"])` gives `all_correct = false`. -/
theorem C5_quadratic_formula :
    (∀ (K : Type) [Field K] [DecidableEq K] (pp : K → String) (sqrtK : K → K)
      (pc : String → Option K) (a b c : String) (cls : List String)
      (av bv cv : K) (vals : List K),
      parseStr pc a = some av → parseStr pc b = some bv → parseStr pc c = some cv →
      parseAll pc cls = some vals →
      (check_quadratic_formula pp sqrtK pc a b c cls).verified = true ∧
      (check_quadratic_formula pp sqrtK pc a b c cls).verification =
        some ((cls.zip vals).map fun p =>
          { claimed := p.1,
            is_correct :=
              decide (p.2 = (-bv + sqrtK (bv ^ 2 - 4 * av * cv)) / (2 * av)) ||
              decide (p.2 = (-bv - sqrtK (bv ^ 2 - 4 * av * cv)) / (2 * av)) }) ∧
      ((check_quadratic_formula pp sqrtK pc a b c cls).all_correct = some true ↔
        ∀ v ∈ vals, v = (-bv + sqrtK (bv ^ 2 - 4 * av * cv)) / (2 * av) ∨
          v = (-bv - sqrtK (bv ^ 2 - 4 * av * cv)) / (2 * av))) ∧
    (check_quadratic_formula ppQ ratSqrt pcQ "1" "-5" "6" ["2", "3"]).all_correct =
      some true ∧
    (check_quadratic_formula ppQ ratSqrt pcQ "1" "-5" "6" ["2", "4"]).all_correct =
      some false := by
  have hpair : ∀ (K : Type) (inst : DecidableEq K) (x1 x2 v : K),
      (([x1, x2].any fun sol => decide (sol = v)) = true) ↔ (v = x1 ∨ v = x2) := by
    intro K inst x1 x2 v
    simp only [List.any_cons, List.any_nil, Bool.or_false, Bool.or_eq_true,
      decide_eq_true_eq]
    exact ⟨fun h => h.imp Eq.symm Eq.symm, fun h => h.imp Eq.symm Eq.symm⟩
  have main : ∀ (K : Type) [Field K] [DecidableEq K] (pp : K → String) (sqrtK : K → K)
      (pc : String → Option K) (a b c : String) (cls : List String)
      (av bv cv : K) (vals : List K),
      parseStr pc a = some av → parseStr pc b = some bv → parseStr pc c = some cv →
      parseAll pc cls = some vals →
      (check_quadratic_formula pp sqrtK pc a b c cls).verified = true ∧
      (check_quadratic_formula pp sqrtK pc a b c cls).verification =
        some ((cls.zip vals).map fun p =>
          { claimed := p.1,
            is_correct :=
              decide (p.2 = (-bv + sqrtK (bv ^ 2 - 4 * av * cv)) / (2 * av)) ||
              decide (p.2 = (-bv - sqrtK (bv ^ 2 - 4 * av * cv)) / (2 * av)) }) ∧
      ((check_quadratic_formula pp sqrtK pc a b c cls).all_correct = some true ↔
        ∀ v ∈ vals, v = (-bv + sqrtK (bv ^ 2 - 4 * av * cv)) / (2 * av) ∨
          v = (-bv - sqrtK (bv ^ 2 - 4 * av * cv)) / (2 * av)) ∧
      (check_quadratic_formula pp sqrtK pc a b c cls).all_correct =
        some ((cls.zip vals).all fun p =>
          decide (p.2 = (-bv + sqrtK (bv ^ 2 - 4 * av * cv)) / (2 * av)) ||
          decide (p.2 = (-bv - sqrtK (bv ^ 2 - 4 * av * cv)) / (2 * av))) := by
    intro K _ _ pp sqrtK pc a b c cls av bv cv vals ha hb hc hcls
    have hq := quadEntries_of_parseAll pc
      [(-bv + sqrtK (bv ^ 2 - 4 * av * cv)) / (2 * av),
       (-bv - sqrtK (bv ^ 2 - 4 * av * cv)) / (2 * av)] cls vals hcls
    have hres : check_quadratic_formula pp sqrtK pc a b c cls =
        { verified := true,
          a := some a, b := some b, c := some c,
          discriminant := some (pp (bv ^ 2 - 4 * av * cv)),
          correct_solutions :=
            some ([(-bv + sqrtK (bv ^ 2 - 4 * av * cv)) / (2 * av),
                   (-bv - sqrtK (bv ^ 2 - 4 * av * cv)) / (2 * av)].map pp),
          verification :=
            some ((cls.zip vals).map fun p =>
              { claimed := p.1,
                is_correct :=
                  [(-bv + sqrtK (bv ^ 2 - 4 * av * cv)) / (2 * av),
                   (-bv - sqrtK (bv ^ 2 - 4 * av * cv)) / (2 * av)].any
                    fun sol => decide (sol = p.2) }),
          all_correct :=
            some (((cls.zip vals).map fun p =>
              ({ claimed := p.1,
                 is_correct :=
                   [(-bv + sqrtK (bv ^ 2 - 4 * av * cv)) / (2 * av),
                    (-bv - sqrtK (bv ^ 2 - 4 * av * cv)) / (2 * av)].any
                     fun sol => decide (sol = p.2) } : QuadEntry)).all
              fun r => r.is_correct),
          error := none } := by
      unfold check_quadratic_formula
      rw [ha, hb, hc]
      dsimp only
      rw [hq]
    have hcomm : ∀ x y : K, decide (x = y) = decide (y = x) := fun x y =>
      decide_eq_decide.mpr ⟨Eq.symm, Eq.symm⟩
    have hentry : ∀ p : String × K,
        ([(-bv + sqrtK (bv ^ 2 - 4 * av * cv)) / (2 * av),
          (-bv - sqrtK (bv ^ 2 - 4 * av * cv)) / (2 * av)].any
            fun sol => decide (sol = p.2)) =
        (decide (p.2 = (-bv + sqrtK (bv ^ 2 - 4 * av * cv)) / (2 * av)) ||
         decide (p.2 = (-bv - sqrtK (bv ^ 2 - 4 * av * cv)) / (2 * av))) := by
      intro p
      simp only [List.any_cons, List.any_nil, Bool.or_false]
      rw [hcomm ((-bv + sqrtK (bv ^ 2 - 4 * av * cv)) / (2 * av)) p.2,
        hcomm ((-bv - sqrtK (bv ^ 2 - 4 * av * cv)) / (2 * av)) p.2]
    have hallval : (((cls.zip vals).map fun p =>
        ({ claimed := p.1,
           is_correct :=
             [(-bv + sqrtK (bv ^ 2 - 4 * av * cv)) / (2 * av),
              (-bv - sqrtK (bv ^ 2 - 4 * av * cv)) / (2 * av)].any
               fun sol => decide (sol = p.2) } : QuadEntry)).all
          fun r => r.is_correct) =
        ((cls.zip vals).all fun p =>
          decide (p.2 = (-bv + sqrtK (bv ^ 2 - 4 * av * cv)) / (2 * av)) ||
          decide (p.2 = (-bv - sqrtK (bv ^ 2 - 4 * av * cv)) / (2 * av))) := by
      rw [all_map_general]
      exact all_congr_mem fun p hp => hentry p
    refine ⟨by rw [hres], ?_, ?_, ?_⟩
    · rw [hres]
      simp only [Option.some.injEq]
      apply List.map_congr_left
      intro p hp
      rw [QuadEntry.mk.injEq]
      exact ⟨rfl, hentry p⟩
    · rw [hres]
      show some _ = some true ↔ _
      rw [Option.some.injEq, hallval]
      refine (zip_all_snd
        (fun v => decide (v = (-bv + sqrtK (bv ^ 2 - 4 * av * cv)) / (2 * av)) ||
          decide (v = (-bv - sqrtK (bv ^ 2 - 4 * av * cv)) / (2 * av)))
        cls vals (parseAll_length pc cls vals hcls)).trans ?_
      constructor
      · intro h v hv
        have := h v hv
        rw [Bool.or_eq_true, decide_eq_true_eq, decide_eq_true_eq] at this
        exact this
      · intro h v hv
        rw [Bool.or_eq_true, decide_eq_true_eq, decide_eq_true_eq]
        exact h v hv
    · rw [hres]
      show some _ = some _
      rw [hallval]
  refine ⟨?_, ?_, ?_⟩
  case _ =>
    intro K _ _ pp sqrtK pc a b c cls av bv cv vals ha hb hc hcls
    obtain ⟨g1, g2, g3, g4⟩ := main K pp sqrtK pc a b c cls av bv cv vals ha hb hc hcls
    exact ⟨g1, g2, g3⟩
  all_goals {
    have p1 : parseStr pcQ "1" = some 1 := by
      simp [parseStr, parse_expression, show normalizeNotation "1" = "1" from by decide, pcQ]
    have p5 : parseStr pcQ "-5" = some (-5) := by
      simp [parseStr, parse_expression, show normalizeNotation "-5" = "-5" from by decide, pcQ]
    have p6 : parseStr pcQ "6" = some 6 := by
      simp [parseStr, parse_expression, show normalizeNotation "6" = "6" from by decide, pcQ]
    have p2 : parseStr pcQ "2" = some 2 := by
      simp [parseStr, parse_expression, show normalizeNotation "2" = "2" from by decide, pcQ]
    have p3 : parseStr pcQ "3" = some 3 := by
      simp [parseStr, parse_expression, show normalizeNotation "3" = "3" from by decide, pcQ]
    have p4 : parseStr pcQ "4" = some 4 := by
      simp [parseStr, parse_expression, show normalizeNotation "4" = "4" from by decide, pcQ]
    have hx1 : (-(-5 : ℚ) + ratSqrt ((-5 : ℚ) ^ 2 - 4 * 1 * 6)) / (2 * 1) = 3 := by
      norm_num [ratSqrt]
    have hx2 : (-(-5 : ℚ) - ratSqrt ((-5 : ℚ) ^ 2 - 4 * 1 * 6)) / (2 * 1) = 2 := by
      norm_num [ratSqrt]
    have d22 : decide ((2 : ℚ) = 2) = true := decide_eq_true rfl
    have d33 : decide ((3 : ℚ) = 3) = true := decide_eq_true rfl
    have d23 : decide ((2 : ℚ) = 3) = false := decide_eq_false (by norm_num)
    have d32 : decide ((3 : ℚ) = 2) = false := decide_eq_false (by norm_num)
    have d43 : decide ((4 : ℚ) = 3) = false := decide_eq_false (by norm_num)
    have d42 : decide ((4 : ℚ) = 2) = false := decide_eq_false (by norm_num)
    first
    | (rw [(main ℚ ppQ ratSqrt pcQ "1" "-5" "6" ["2", "3"] 1 (-5) 6 [2, 3] p1 p5 p6
          (by simp [parseAll, p2, p3])).2.2.2]
       rw [show (["2", "3"].zip [(2 : ℚ), 3]) = [("2", (2 : ℚ)), ("3", (3 : ℚ))] from rfl]
       simp only [List.all_cons, List.all_nil, hx1, hx2, d22, d33, d23, d32]
       rfl)
    | (rw [(main ℚ ppQ ratSqrt pcQ "1" "-5" "6" ["2", "4"] 1 (-5) 6 [2, 4] p1 p5 p6
          (by simp [parseAll, p2, p4])).2.2.2]
       rw [show (["2", "4"].zip [(2 : ℚ), 4]) = [("2", (2 : ℚ)), ("4", (4 : ℚ))] from rfl]
       simp only [List.all_cons, List.all_nil, hx1, hx2, d22, d43, d23, d42]
       rfl)
  }

/-- Concrete instantiation for the equation-solution witness: a parse table
over `ℕ` recognising only the literal `"0"`. -/
def pcNat0 : String → Option ℕ := fun s => if s = "0" then some 0 else none

/-- Witness for C2: the equation `"0=0"` with a solver returning the empty
solution list gives `is_correct = false` and `correct_solutions = []`. -/
theorem C2_equation_empty_solution_set_witness :
    (verify_equation_solution (fun n : ℕ => toString n) pcNat0 (fun _ _ _ => some [])
      "0=0" "x" "0").is_correct = some false ∧
    (verify_equation_solution (fun n : ℕ => toString n) pcNat0 (fun _ _ _ => some [])
      "0=0" "x" "0").correct_solutions = some [] :=
  (C2_equation_empty_solution_set ℕ (fun n => toString n) pcNat0 (fun _ _ _ => some [])
    "0=0" "x" "0" 0 0 0 [] (by decide) (by decide) (by decide) rfl (by decide)).2.2.2 rfl

/-- Witness for C5: the general quadratic theorem applied to the concrete
example `a="1"`, `b="-5"`, `c="6"`, claimed `["2","3"]`. -/
theorem C5_quadratic_formula_witness :
    (check_quadratic_formula ppQ ratSqrt pcQ "1" "-5" "6" ["2", "3"]).verified = true :=
  (C5_quadratic_formula.1 ℚ ppQ ratSqrt pcQ "1" "-5" "6" ["2", "3"] 1 (-5) 6 [2, 3]
    rfl rfl rfl rfl).1

/-! ### `verify_derivative` (lines 154-195) and `verify_integral` (lines 197-240)

For the calculus operations the relevant sympy objects are expressions in the
single differentiation variable.  They are modelled by the polynomial
expression tree `SymExpr` (rational constants, the variable, sum, difference,
product, natural power — the fragment in which the repository exercises these
operations); `diff` is structural symbolic differentiation, and the test
`simplify(e) == 0` is modelled by expanding `e` into its coefficient list and
checking that every coefficient is zero. -/

/-- A symbolic expression in one variable (polynomial fragment of the sympy
expression language). -/
inductive SymExpr where
  | num (q : ℚ)
  | var
  | add (e1 e2 : SymExpr)
  | sub (e1 e2 : SymExpr)
  | mul (e1 e2 : SymExpr)
  | pow (e : SymExpr) (n : ℕ)
deriving DecidableEq

/-- Structural symbolic differentiation (sympy `diff(e, var)`). -/
def diffE : SymExpr → SymExpr
  | SymExpr.num _ => SymExpr.num 0
  | SymExpr.var => SymExpr.num 1
  | SymExpr.add a b => SymExpr.add (diffE a) (diffE b)
  | SymExpr.sub a b => SymExpr.sub (diffE a) (diffE b)
  | SymExpr.mul a b => SymExpr.add (SymExpr.mul (diffE a) b) (SymExpr.mul a (diffE b))
  | SymExpr.pow a n =>
    SymExpr.mul (SymExpr.mul (SymExpr.num n) (SymExpr.pow a (n - 1))) (diffE a)

/-- Dense polynomial coefficient lists (index = degree): addition. -/
def polyAdd : List ℚ → List ℚ → List ℚ
  | [], q => q
  | p, [] => p
  | a :: p, b :: q => (a + b) :: polyAdd p q

/-- Negation of a coefficient list. -/
def polyNeg (p : List ℚ) : List ℚ := p.map Neg.neg

/-- Subtraction of coefficient lists. -/
def polySub (p q : List ℚ) : List ℚ := polyAdd p (polyNeg q)

/-- Multiplication by a scalar. -/
def polyScale (c : ℚ) (p : List ℚ) : List ℚ := p.map fun a => c * a

/-- Multiplication of coefficient lists. -/
def polyMul : List ℚ → List ℚ → List ℚ
  | [], _ => []
  | a :: p, q => polyAdd (polyScale a q) ((0 : ℚ) :: polyMul p q)

/-- Power of a coefficient list. -/
def polyPow (p : List ℚ) : ℕ → List ℚ
  | 0 => [1]
  | n + 1 => polyMul p (polyPow p n)

/-- Expansion of a `SymExpr` into its coefficient list. -/
def toPoly : SymExpr → List ℚ
  | SymExpr.num q => [q]
  | SymExpr.var => [0, 1]
  | SymExpr.add a b => polyAdd (toPoly a) (toPoly b)
  | SymExpr.sub a b => polySub (toPoly a) (toPoly b)
  | SymExpr.mul a b => polyMul (toPoly a) (toPoly b)
  | SymExpr.pow a n => polyPow (toPoly a) n

/-- A coefficient list denoting the zero polynomial. -/
def isZeroPoly (p : List ℚ) : Bool := p.all fun c => decide (c = 0)

/-- The equivalence test of the verifier, `simplify(e) == 0`: the expansion
of `e` has only zero coefficients. -/
def exprEqZero (e : SymExpr) : Bool := isZeroPoly (toPoly e)

/-- Rendering of a symbolic expression for the report fields, abstracted by
its expanded coefficient list. -/
def ppE (e : SymExpr) : String := toString (toPoly e)

/-- The reference antiderivative `integrate(f, var)` on coefficient lists. -/
def intPolyAux : ℕ → List ℚ → List ℚ
  | _, [] => []
  | n, a :: p => a / (n + 1) :: intPolyAux (n + 1) p

/-- The reference antiderivative of an expression, as a coefficient list. -/
def intPoly (p : List ℚ) : List ℚ := (0 : ℚ) :: intPolyAux 0 p

/-- The result dictionary of `verify_derivative`. -/
structure DerivResult where
  verified : Bool
  function_text : Option String
  varName : Option String
  claimed_derivative : Option String
  correct_derivative : Option String
  is_correct : Option Bool
  error : Option String
deriving DecidableEq

/-- The failure dictionary `{'verified': False, 'error': msg}`. -/
def DerivResult.fail (msg : String) : DerivResult :=
  { verified := false, function_text := none, varName := none,
    claimed_derivative := none, correct_derivative := none,
    is_correct := none, error := some msg }

/-- `MathVerifier.verify_derivative(function_str, variable, claimed_derivative)`. -/
def verify_derivative (pc : String → Option SymExpr)
    (function_str variable_name claimed_derivative : String) : DerivResult :=
  match parseStr pc function_str with
  | none => DerivResult.fail "Could not parse function"
  | some f =>
    match parseStr pc claimed_derivative with
    | none => DerivResult.fail "Could not parse claimed derivative"
    | some claimed =>
      let correct_derivative := diffE f
      let ic : Bool := exprEqZero (SymExpr.sub correct_derivative claimed)
      { verified := true,
        function_text := some function_str,
        varName := some variable_name,
        claimed_derivative := some claimed_derivative,
        correct_derivative := some (ppE correct_derivative),
        is_correct := some ic,
        error := if ic then none
                 else some ("Correct derivative: " ++ ppE correct_derivative) }

/-- The result dictionary of `verify_integral`. -/
structure IntResult where
  verified : Bool
  function_text : Option String
  varName : Option String
  claimed_integral : Option String
  correct_integral : Option String
  is_correct : Option Bool
  error : Option String
deriving DecidableEq

/-- The failure dictionary `{'verified': False, 'error': msg}`. -/
def IntResult.fail (msg : String) : IntResult :=
  { verified := false, function_text := none, varName := none,
    claimed_integral := none, correct_integral := none,
    is_correct := none, error := some msg }

/-- `MathVerifier.verify_integral(function_str, variable, claimed_integral)`:
the check differentiates the claimed antiderivative and compares it to the
original function; the reference antiderivative is computed separately and
only reported. -/
def verify_integral (pc : String → Option SymExpr)
    (function_str variable_name claimed_integral : String) : IntResult :=
  match parseStr pc function_str with
  | none => IntResult.fail "Could not parse function"
  | some f =>
    match parseStr pc claimed_integral with
    | none => IntResult.fail "Could not parse claimed integral"
    | some claimed =>
      let derivative_of_claimed := diffE claimed
      let ic : Bool := exprEqZero (SymExpr.sub derivative_of_claimed f)
      let correct_integral := intPoly (toPoly f)
      { verified := true,
        function_text := some function_str,
        varName := some variable_name,
        claimed_integral := some claimed_integral,
        correct_integral := some (toString correct_integral ++ " + C"),
        is_correct := some ic,
        error := if ic then none
                 else some ("Correct integral: " ++ toString correct_integral ++ " + C") }

/-! Adding a constant to an antiderivative does not change the zero test on
the derivative difference. -/

theorem polyAdd_right_nil (p : List ℚ) : polyAdd p [] = p := by
  cases p <;> rfl

theorem polyAdd_left_nil (q : List ℚ) : polyAdd [] q = q := by
  cases q <;> rfl

theorem polyAdd_zero_singleton (a : ℚ) (p : List ℚ) :
    polyAdd (a :: p) [(0 : ℚ)] = a :: p := by
  show (a + 0) :: polyAdd p [] = a :: p
  rw [add_zero, polyAdd_right_nil]

theorem isZeroPoly_sub_add_zero (P Q : List ℚ) :
    isZeroPoly (polySub (polyAdd P [(0 : ℚ)]) Q) = isZeroPoly (polySub P Q) := by
  cases P with
  | cons a p => rw [polyAdd_zero_singleton]
  | nil =>
    cases Q with
    | nil => rfl
    | cons b q =>
      show isZeroPoly ((0 + -b) :: polyAdd [] (polyNeg q)) = isZeroPoly (-b :: polyNeg q)
      rw [zero_add, polyAdd_left_nil]

/-- C3.  `verify_integral` judges a claimed antiderivative by differentiating
it and comparing the derivative with the original function, so the result is
invariant under adding any constant `k`: whenever `F` passes the derivative
comparison for `f`, the claimed text parsing to `F + k` is marked correct.
Moreover `is_correct` is a function of the claimed expression's derivative
and `f` alone — the separately computed reference antiderivative does not
enter it. -/
theorem C3_integral_constant_invariance :
    (∀ (pc : String → Option SymExpr) (fs Fs : String) (f F : SymExpr) (k : ℚ),
      parseStr pc fs = some f →
      parseStr pc Fs = some (SymExpr.add F (SymExpr.num k)) →
      exprEqZero (SymExpr.sub (diffE F) f) = true →
      (verify_integral pc fs "x" Fs).is_correct = some true) ∧
    (∀ (pc : String → Option SymExpr) (fs cs vn : String) (f cl : SymExpr),
      parseStr pc fs = some f → parseStr pc cs = some cl →
      (verify_integral pc fs vn cs).is_correct =
        some (exprEqZero (SymExpr.sub (diffE cl) f))) := by
  have part2 : ∀ (pc : String → Option SymExpr) (fs cs vn : String) (f cl : SymExpr),
      parseStr pc fs = some f → parseStr pc cs = some cl →
      (verify_integral pc fs vn cs).is_correct =
        some (exprEqZero (SymExpr.sub (diffE cl) f)) := by
    intro pc fs cs vn f cl hf hcl
    unfold verify_integral
    rw [hf, hcl]
  refine ⟨?_, part2⟩
  intro pc fs Fs f F k hf hF hanti
  rw [part2 pc fs Fs "x" f (SymExpr.add F (SymExpr.num k)) hf hF]
  have hd : diffE (SymExpr.add F (SymExpr.num k)) =
      SymExpr.add (diffE F) (SymExpr.num 0) := rfl
  rw [hd]
  show some (isZeroPoly (polySub (polyAdd (toPoly (diffE F)) [(0 : ℚ)]) (toPoly f)))
    = some true
  rw [isZeroPoly_sub_add_zero]
  exact congrArg some hanti

/-- Concrete parse table for the integral witness: sympy parsing of the two
normalized texts appearing there. -/
def pcE : String → Option SymExpr := fun s =>
  if s = "2*x" then some (SymExpr.mul (SymExpr.num 2) SymExpr.var)
  else if s = "x**2 + 5" then some (SymExpr.add (SymExpr.pow SymExpr.var 2) (SymExpr.num 5))
  else none

/-- Witness for C3: `∫ 2x dx` claimed as `x² + 5` (a valid antiderivative
`x²` plus the constant `5`) is marked correct. -/
theorem C3_integral_constant_invariance_witness :
    (verify_integral pcE "2x" "x" "x² + 5").is_correct = some true :=
  C3_integral_constant_invariance.1 pcE "2x" "x² + 5"
    (SymExpr.mul (SymExpr.num 2) SymExpr.var) (SymExpr.pow SymExpr.var 2) 5 rfl rfl
    (by norm_num [exprEqZero, isZeroPoly, toPoly, diffE, polySub, polyAdd, polyNeg,
      polyScale, polyMul, polyPow, List.all])

/-- C6.  No verification operation ever returns a result that both signals
`verified = false` and carries an `is_correct` value: across all five
operations, the `is_correct` key (for the quadratic check, the `all_correct`
and `verification` keys) is present exactly when `verified = true`, and a
`verified = false` result always carries an error message. -/
theorem C6_verified_false_carries_no_is_correct :
    (∀ (K : Type) [DecidableEq K] (pp : K → String) (pc : String → Option K) (e c : PyVal),
      (verify_arithmetic pp pc e c).is_correct.isSome = (verify_arithmetic pp pc e c).verified ∧
      ((verify_arithmetic pp pc e c).verified || (verify_arithmetic pp pc e c).error.isSome)
        = true) ∧
    (∀ (K : Type) [DecidableEq K] (pp : K → String) (pc : String → Option K)
      (solveFn : String → K → K → Option (List K)) (eqs vn cs : String),
      (verify_equation_solution pp pc solveFn eqs vn cs).is_correct.isSome
        = (verify_equation_solution pp pc solveFn eqs vn cs).verified ∧
      ((verify_equation_solution pp pc solveFn eqs vn cs).verified ||
        (verify_equation_solution pp pc solveFn eqs vn cs).error.isSome) = true) ∧
    (∀ (pc : String → Option SymExpr) (fs vn cs : String),
      (verify_derivative pc fs vn cs).is_correct.isSome = (verify_derivative pc fs vn cs).verified ∧
      ((verify_derivative pc fs vn cs).verified ||
        (verify_derivative pc fs vn cs).error.isSome) = true) ∧
    (∀ (pc : String → Option SymExpr) (fs vn cs : String),
      (verify_integral pc fs vn cs).is_correct.isSome = (verify_integral pc fs vn cs).verified ∧
      ((verify_integral pc fs vn cs).verified ||
        (verify_integral pc fs vn cs).error.isSome) = true) ∧
    (∀ (K : Type) [Field K] [DecidableEq K] (pp : K → String) (sqrtK : K → K)
      (pc : String → Option K) (a b c : String) (cls : List String),
      (check_quadratic_formula pp sqrtK pc a b c cls).all_correct.isSome
        = (check_quadratic_formula pp sqrtK pc a b c cls).verified ∧
      (check_quadratic_formula pp sqrtK pc a b c cls).verification.isSome
        = (check_quadratic_formula pp sqrtK pc a b c cls).verified ∧
      ((check_quadratic_formula pp sqrtK pc a b c cls).verified ||
        (check_quadratic_formula pp sqrtK pc a b c cls).error.isSome) = true) := by
  refine ⟨?_, ?_, ?_, ?_, ?_⟩
  · intro K _ pp pc e c
    unfold verify_arithmetic
    cases h1 : parse_expression pc e with
    | none =>
      cases h2 : parse_expression pc c <;> simp [h1, h2, ArithResult.fail]
    | some x =>
      cases h2 : parse_expression pc c with
      | none => simp [h1, h2, ArithResult.fail]
      | some y => simp [h1, h2]
  · intro K _ pp pc solveFn eqs vn cs
    unfold verify_equation_solution
    by_cases hc : (!(eqs.data.contains '=')) = true
    · rw [if_pos hc]; simp [EqSolResult.fail]
    · rw [if_neg hc]
      cases h1 : parseStr pc (String.mk (pyStrip (splitOnceEq eqs.data).1)) with
      | none =>
        cases h2 : parseStr pc (String.mk (pyStrip (splitOnceEq eqs.data).2)) <;>
          simp [h1, h2, EqSolResult.fail]
      | some le =>
        cases h2 : parseStr pc (String.mk (pyStrip (splitOnceEq eqs.data).2)) with
        | none => simp [h1, h2, EqSolResult.fail]
        | some re =>
          cases h3 : solveFn vn le re with
          | none => simp [h1, h2, h3, EqSolResult.fail]
          | some sols =>
            cases h4 : parseStr pc cs with
            | none => simp [h1, h2, h3, h4, EqSolResult.fail]
            | some cl => simp [h1, h2, h3, h4]
  · intro pc fs vn cs
    unfold verify_derivative
    cases h1 : parseStr pc fs with
    | none => simp [h1, DerivResult.fail]
    | some f =>
      cases h2 : parseStr pc cs with
      | none => simp [h1, h2, DerivResult.fail]
      | some cl => simp [h1, h2]
  · intro pc fs vn cs
    unfold verify_integral
    cases h1 : parseStr pc fs with
    | none => simp [h1, IntResult.fail]
    | some f =>
      cases h2 : parseStr pc cs with
      | none => simp [h1, h2, IntResult.fail]
      | some cl => simp [h1, h2]
  · intro K _ _ pp sqrtK pc a b c cls
    unfold check_quadratic_formula
    cases h1 : parseStr pc a with
    | none =>
      cases h2 : parseStr pc b <;> cases h3 : parseStr pc c <;>
        simp [h1, h2, h3, QuadResult.fail]
    | some av =>
      cases h2 : parseStr pc b with
      | none => cases h3 : parseStr pc c <;> simp [h1, h2, h3, QuadResult.fail]
      | some bv =>
        cases h3 : parseStr pc c with
        | none => simp [h1, h2, h3, QuadResult.fail]
        | some cv =>
          cases h4 : quadEntries pc
              [(-bv + sqrtK (bv ^ 2 - 4 * av * cv)) / (2 * av),
               (-bv - sqrtK (bv ^ 2 - 4 * av * cv)) / (2 * av)] cls with
          | none => simp [h1, h2, h3, h4, QuadResult.fail]
          | some results => simp [h1, h2, h3, h4]

/-! ### The calculation scanner `verify_solution_steps` (lines 350-394)

The scanner applies three regular expressions to the solution text with
`re.finditer`, in source order:

* `(\d+(?:\.\d+)?)\s*([+\-*/×÷])\s*(\d+(?:\.\d+)?)\s*=\s*(\d+(?:\.\d+)?)`
  (kind `arithmetic`),
* `([a-zA-Z])\s*=\s*([\d\.\-]+)` (kind `assignment`),
* `([a-zA-Z])\s*=\s*([^=]+)\s*=\s*([\d\.\-]+)` (kind `equation_result`).

Each pattern is hand-compiled into a deterministic anchored matcher.  For
the first two patterns backtracking never changes the outcome: every
quantified class is disjoint from whatever may legally follow it.  In the
third, `[^=]+` always reaches exactly the first `=` after its start, and
the one genuine backtracking case is a whitespace-only middle: `[^=]+`
would be empty, so the engine hands the last character of the preceding
`\s*` back to it, which becomes the captured middle (e.g. `"x = = 5"`
matches with middle `" "`).  `re.finditer` semantics — leftmost matches,
non-overlapping, scanning resumes at the end of each match — is `scanSkip`. -/

/-- The operator class `[+\-*/×÷]` of the arithmetic pattern. -/
def isOpChar (c : Char) : Bool :=
  c = '+' || c = '-' || c = '*' || c = '/' || c = '×' || c = '÷'

/-- The value class `[\d\.\-]` of the assignment and chain patterns. -/
def numValChar (c : Char) : Bool := c.isDigit || c = '.' || c = '-'

/-- Anchored `\d+(?:\.\d+)?`: an integer part and an optional fraction,
returning the matched characters and the rest. -/
def matchNum (l : List Char) : Option (List Char × List Char) :=
  let ds := l.takeWhile Char.isDigit
  let r := l.dropWhile Char.isDigit
  if ds.isEmpty then none
  else
    match r with
    | '.' :: r2 =>
      let ds2 := r2.takeWhile Char.isDigit
      if ds2.isEmpty then some (ds, r)
      else some (ds ++ '.' :: ds2, r2.dropWhile Char.isDigit)
    | _ => some (ds, r)

/-- The captured groups of an arithmetic match: `(a, op, b, result)`. -/
structure ArithMatch where
  opa : List Char
  op : Char
  opb : List Char
  res : List Char
deriving DecidableEq

/-- The captured groups of an assignment match: `(letter, value)`. -/
structure AssignMatch where
  v : Char
  val : List Char
deriving DecidableEq

/-- The captured groups of a chained-equation match:
`(letter, middle expression, trailing value)`. -/
structure EqResMatch where
  v : Char
  expr : List Char
  res : List Char
deriving DecidableEq

/-- Anchored matcher for the `arithmetic` pattern. -/
def matchArith (l : List Char) : Option (ArithMatch × List Char) :=
  match matchNum l with
  | none => none
  | some (a, r1) =>
    match r1.dropWhile pySpace with
    | op :: r3 =>
      if isOpChar op then
        match matchNum (r3.dropWhile pySpace) with
        | none => none
        | some (b, r5) =>
          match r5.dropWhile pySpace with
          | '=' :: r7 =>
            match matchNum (r7.dropWhile pySpace) with
            | none => none
            | some (res, r9) => some (⟨a, op, b, res⟩, r9)
          | _ => none
      else none
    | [] => none

/-- Anchored matcher for the `assignment` pattern. -/
def matchAssign (l : List Char) : Option (AssignMatch × List Char) :=
  match l with
  | c :: r =>
    if c.isAlpha then
      match r.dropWhile pySpace with
      | '=' :: r2 =>
        let r3 := r2.dropWhile pySpace
        let v := r3.takeWhile numValChar
        if v.isEmpty then none else some (⟨c, v⟩, r3.dropWhile numValChar)
      | _ => none
    else none
  | [] => none

/-- Anchored matcher for the `equation_result` pattern.  When everything
between the two `=` signs is whitespace, `[^=]+` would be empty, so the
engine backtracks the preceding `\s*` by one character and that final
whitespace character becomes the captured middle; with no whitespace to
hand back the position fails. -/
def matchEqRes (l : List Char) : Option (EqResMatch × List Char) :=
  match l with
  | c :: r =>
    if c.isAlpha then
      match r.dropWhile pySpace with
      | '=' :: r2 =>
        let r3 := r2.dropWhile pySpace
        let mid := r3.takeWhile fun d => !(d == '=')
        if mid.isEmpty then
          match (r2.takeWhile pySpace).getLast?, r3 with
          | some wlast, '=' :: r5 =>
            let r6 := r5.dropWhile pySpace
            let v := r6.takeWhile numValChar
            if v.isEmpty then none
            else some (⟨c, [wlast], v⟩, r6.dropWhile numValChar)
          | _, _ => none
        else
          match r3.dropWhile fun d => !(d == '=') with
          | '=' :: r5 =>
            let r6 := r5.dropWhile pySpace
            let v := r6.takeWhile numValChar
            if v.isEmpty then none else some (⟨c, mid, v⟩, r6.dropWhile numValChar)
          | _ => none
      | _ => none
    else none
  | [] => none

/-- `re.finditer` driving loop: at skip `0` an anchored match is attempted;
on success the matched group and span are emitted and the scan continues at
the end of the match, otherwise the scan advances one character. -/
def scanSkip {G : Type} (f : List Char → Option (G × List Char)) :
    List Char → ℕ → List (G × List Char)
  | [], _ => []
  | _ :: t, Nat.succ k => scanSkip f t k
  | c :: t, 0 =>
    match f (c :: t) with
    | some (g, r) =>
      (g, (c :: t).take (t.length + 1 - r.length)) :: scanSkip f t (t.length - r.length)
    | none => scanSkip f t 0

/-- All matches of an anchored matcher over a text, with their spans. -/
def findIter {G : Type} (f : List Char → Option (G × List Char)) (l : List Char) :
    List (G × List Char) :=
  scanSkip f l 0

/-- The operator map of the scanner: `×` and `÷` are rewritten, every other
operator maps to itself (`op_map.get(op, op)`). -/
def opMapped (op : Char) : Char :=
  if op = '×' then '*' else if op = '÷' then '/' else op

/-- The expression text `f"{a} {safe_op} {b}"` fed to `verify_arithmetic`. -/
def arithExprText (m : ArithMatch) : String :=
  String.mk m.opa ++ " " ++ String.mk [opMapped m.op] ++ " " ++ String.mk m.opb

/-- One entry of the list returned by `verify_solution_steps`: the
`verify_arithmetic` dictionary extended with the matched span (`match`) and
the pattern kind (`type`). -/
structure ScanStep where
  result : ArithResult
  matchSpan : String
  kind : String
deriving DecidableEq

/-- `verify_solution_steps(problem_text, solution_text)`: the three pattern
families are applied in source order to the full solution text; every
`arithmetic` and `equation_result` match is verified and appended; the loop
body has no branch for the `assignment` kind, so its matches are iterated
but contribute nothing. -/
def verify_solution_steps {K : Type} [DecidableEq K] (pp : K → String)
    (pc : String → Option K) ( _problem_text solution_text : String) : List ScanStep :=
  let chars := solution_text.data
  let arithVs := (findIter matchArith chars).map fun m =>
    { result := verify_arithmetic pp pc (PyVal.pyStr (arithExprText m.1))
        (PyVal.pyStr (String.mk m.1.res)),
      matchSpan := String.mk m.2,
      kind := "arithmetic" }
  let assignVs : List ScanStep := (findIter matchAssign chars).foldr (fun _ acc => acc) []
  let eqresVs := (findIter matchEqRes chars).map fun m =>
    { result := verify_arithmetic pp pc (PyVal.pyStr (String.mk (pyStrip m.1.expr)))
        (PyVal.pyStr (String.mk m.1.res)),
      matchSpan := String.mk m.2,
      kind := "equation_result" }
  arithVs ++ (assignVs ++ eqresVs)

theorem foldr_drop_all {α β : Type} (l : List α) (init : List β) :
    l.foldr (fun _ acc => acc) init = init := by
  induction l <;> simp [*]

/-- Counterexample to C1 as stated: on the text
`"2 + 3 = 5 so x = (2 + 6)/4 = 2"` the arithmetic family yields a match, yet
the scan still produces an `equation_result` entry — the chained calculation
`(2 + 6)/4 = 2` is detectable only by the lower-priority family and its
VerificationResult is nevertheless emitted, so no pattern family is ever
skipped. -/
theorem C1_counterexample_no_family_skipped :
    ((verify_solution_steps (fun n : ℕ => toString n) (fun _ => none) ""
        "2 + 3 = 5 so x = (2 + 6)/4 = 2").map fun v => v.kind)
      = ["arithmetic", "equation_result"] ∧
    (findIter matchArith "2 + 3 = 5 so x = (2 + 6)/4 = 2".data).length = 1 := by
  decide

/-- C1 (amended).  The calculation scanner tries its pattern families in the
listed order (arithmetic, assignment, equation_result), but it never skips a
family: every family is scanned over the full text, and each arithmetic and
each equation_result match contributes one VerificationResult regardless of
what the earlier families matched — the emitted kinds are always exactly the
arithmetic matches followed by the equation_result matches. -/
theorem C1_scanner_runs_all_families (K : Type) [DecidableEq K] (pp : K → String)
    (pc : String → Option K) (problem_text solution_text : String) :
    (verify_solution_steps pp pc problem_text solution_text).map (fun v => v.kind)
      = List.replicate (findIter matchArith solution_text.data).length "arithmetic"
        ++ List.replicate (findIter matchEqRes solution_text.data).length
            "equation_result" := by
  simp only [verify_solution_steps, foldr_drop_all]
  simp only [List.nil_append, List.map_append, List.map_map]
  congr 1 <;> (simp only [Function.comp_def]; exact List.map_const' _ _)

/-- C10.  The scanner's output never contains a result of kind `assignment`:
the bare assignment pattern is matched over the text (for `"x = 5"` it
yields the match `('x', "5")`), but the loop body has no branch for it, so
nothing is appended for those matches and only `arithmetic` and
`equation_result` kinds can appear. -/
theorem C10_no_assignment_results :
    (∀ (K : Type) [DecidableEq K] (pp : K → String) (pc : String → Option K)
      (pt st : String),
      ((verify_solution_steps pp pc pt st).all fun v =>
        v.kind == "arithmetic" || v.kind == "equation_result") = true) ∧
    (findIter matchAssign "x = 5".data).map (fun m => (m.1.v, String.mk m.1.val))
      = [('x', "5")] ∧
    verify_solution_steps (fun n : ℕ => toString n) (fun _ => none) "" "x = 5" = [] := by
  refine ⟨?_, by decide, by decide⟩
  intro K _ pp pc pt st
  simp only [verify_solution_steps, foldr_drop_all]
  simp [List.all_append, all_map_general]

/-! ### The problem classifier `detect_problem_type` (`solver.py`, lines 124-213)

Keyword containment is Python's substring operator `in`; scoring counts the
keywords of each fixed list contained in the lower-cased text.  The five
structural regex shapes of `_has_math_expressions` are hand-compiled into
anchored matchers, each tried at every position (`re.search`). -/

/-- Anchored prefix test on character lists. -/
def startsWithChars : List Char → List Char → Bool
  | [], _ => true
  | _ :: _, [] => false
  | n :: ns, h :: hs => n == h && startsWithChars ns hs

/-- Python's substring operator `needle in hay`. -/
def containsSub (needle : List Char) : List Char → Bool
  | [] => needle.isEmpty
  | h :: hs => startsWithChars needle (h :: hs) || containsSub needle hs

/-- The keys of `ProblemSolver.SYSTEM_PROMPTS` (the prompt bodies steer the
external reasoning engine only and play no role in any modelled control
flow). -/
def SYSTEM_PROMPT_KEYS : List String :=
  ["math", "physics", "chemistry", "word_problem", "general"]

/-- The physics keyword list of `detect_problem_type`. -/
def physics_keywords : List String :=
  ["velocity", "acceleration", "force", "mass", "newton",
   "joule", "watt", "energy", "momentum", "friction",
   "gravity", "electric", "magnetic", "wave", "frequency",
   "m/s", "kg", "meters per second"]

/-- The chemistry keyword list of `detect_problem_type`. -/
def chemistry_keywords : List String :=
  ["molecule", "atom", "element", "compound", "reaction",
   "mole", "molarity", "concentration", "acid", "base",
   "ph", "oxidation", "reduction", "bond", "ion",
   "h2o", "nacl", "co2", "chemical", "balance equation"]

/-- The math keyword list of `detect_problem_type`. -/
def math_keywords : List String :=
  ["solve", "equation", "algebra", "calculus", "geometry",
   "integral", "derivative", "function", "graph",
   "polynomial", "quadratic", "linear", "matrix", "vector",
   "limit", "series", "sum", "product",
   "sin", "cos", "tan", "log", "ln", "sqrt", "√"]

/-- The word-problem indicator list of `detect_problem_type`. -/
def word_problem_indicators : List String :=
  ["how many", "how much", "find the", "calculate the",
   "what is the", "if", "when", "total", "remaining"]

/-- The operator class `[\+\-\*\/×÷\^]` of the first structural pattern. -/
def mathOpChar (c : Char) : Bool :=
  c = '+' || c = '-' || c = '*' || c = '/' || c = '×' || c = '÷' || c = '^'

/-- Anchored `\d+\s*[\+\-\*\/×÷\^]\s*\d+`. -/
def matchesBinop (l : List Char) : Bool :=
  if (l.takeWhile Char.isDigit).isEmpty then false
  else
    match (l.dropWhile Char.isDigit).dropWhile pySpace with
    | c :: r2 =>
      if mathOpChar c then
        match r2.dropWhile pySpace with
        | d :: _ => d.isDigit
        | [] => false
      else false
    | [] => false

/-- Anchored `[a-zA-Z]\s*=\s*\d+`. -/
def matchesVarAssign : List Char → Bool
  | c :: r =>
    c.isAlpha &&
      (match r.dropWhile pySpace with
       | '=' :: r2 =>
         match r2.dropWhile pySpace with
         | d :: _ => d.isDigit
         | [] => false
       | _ => false)
  | [] => false

/-- Anchored `\d+\s*=\s*\d+`. -/
def matchesNumEq (l : List Char) : Bool :=
  if (l.takeWhile Char.isDigit).isEmpty then false
  else
    match (l.dropWhile Char.isDigit).dropWhile pySpace with
    | '=' :: r2 =>
      match r2.dropWhile pySpace with
      | d :: _ => d.isDigit
      | [] => false
    | _ => false

/-- Anchored `\([^)]+\)`. -/
def matchesParen : List Char → Bool
  | '(' :: r =>
    !(r.takeWhile fun c => !(c == ')')).isEmpty &&
      (match r.dropWhile fun c => !(c == ')') with
       | ')' :: _ => true
       | _ => false)
  | _ => false

/-- Anchored `x\^?\d*`: both quantifiers admit the empty match, so the
pattern succeeds at every literal `x`. -/
def matchesVarExp : List Char → Bool
  | 'x' :: _ => true
  | _ => false

/-- `re.search`: try the anchored matcher at every position. -/
def searchAny (f : List Char → Bool) : List Char → Bool
  | [] => f []
  | c :: t => f (c :: t) || searchAny f t

/-- `ProblemSolver._has_math_expressions(text)`: the five structural shapes
in source order, any hit wins. -/
def has_math_expressions (l : List Char) : Bool :=
  searchAny matchesBinop l || searchAny matchesVarAssign l || searchAny matchesNumEq l ||
    searchAny matchesParen l || searchAny matchesVarExp l

/-- `ProblemSolver.detect_problem_type(text, hint)`. -/
def detect_problem_type (text : String) (hint : String) : String :=
  if hint != "auto" && SYSTEM_PROMPT_KEYS.contains hint then hint
  else
    let text_lower := text.data.map Char.toLower
    let physics_score := physics_keywords.countP fun kw => containsSub kw.data text_lower
    let chemistry_score := chemistry_keywords.countP fun kw => containsSub kw.data text_lower
    let math_score := math_keywords.countP fun kw => containsSub kw.data text_lower
    let has_math_expr := has_math_expressions text.data
    let is_word_problem := word_problem_indicators.any fun w => containsSub w.data text_lower
    if has_math_expr then
      if 3 ≤ physics_score then "physics"
      else if 3 ≤ chemistry_score then "chemistry"
      else "math"
    else
      let max_score := max (max physics_score chemistry_score) math_score
      if 2 ≤ physics_score ∧ physics_score = max_score then "physics"
      else if 2 ≤ chemistry_score ∧ chemistry_score = max_score then "chemistry"
      else if 0 < math_score then "math"
      else if is_word_problem then "word_problem"
      else "math"

/-- C8.  A hint other than the `auto` sentinel that names a recognized
domain is returned immediately, whatever the text; in particular a
`"physics"` hint always classifies as `physics`. -/
theorem C8_explicit_hint_wins :
    (∀ text hint : String, (hint != "auto") = true →
      SYSTEM_PROMPT_KEYS.contains hint = true →
      detect_problem_type text hint = hint) ∧
    (∀ text : String, detect_problem_type text "physics" = "physics") := by
  have main : ∀ text hint : String, (hint != "auto") = true →
      SYSTEM_PROMPT_KEYS.contains hint = true →
      detect_problem_type text hint = hint := by
    intro text hint h1 h2
    unfold detect_problem_type
    rw [h1, h2]
    rfl
  exact ⟨main, fun text => main text "physics" (by decide) (by decide)⟩

/-- Witness for C8: the hint `"physics"` wins over a plainly mathematical
text. -/
theorem C8_explicit_hint_wins_witness :
    detect_problem_type "solve 2x + 5 = 13" "physics" = "physics" :=
  C8_explicit_hint_wins.1 "solve 2x + 5 = 13" "physics" (by decide) (by decide)

/-! ### The step extractor `_extract_steps` (`solver.py`, lines 376-396)

Two patterns are tried in order with `re.findall(..., re.DOTALL | re.IGNORECASE)`:

* `Step\s*(\d+)[:\.\)]\s*(.+?)(?=Step\s*\d+|$)`
* `(\d+)[:\.\)]\s*(.+?)(?=\d+[:\.\)]|$)`

and the second is used only when the first yields no matches.  Under DOTALL
the lazy group `(.+?)` may contain newlines; it consumes at least one
character and stops at the first position where the lookahead (or `$`,
i.e. the end of the text or the position before a final newline) holds.
When everything after the step header is whitespace, `\s*` hands its last
character back to the content group. -/

/-- The punctuation class `[:\.\)]` after a step number. -/
def stepPunct (c : Char) : Bool := c = ':' || c = '.' || c = ')'

/-- Anchored, case-insensitive literal `Step`. -/
def matchStepWord : List Char → Option (List Char)
  | c1 :: c2 :: c3 :: c4 :: r =>
    if c1.toLower == 's' && c2.toLower == 't' && c3.toLower == 'e' && c4.toLower == 'p'
    then some r else none
  | _ => none

/-- `$` without MULTILINE: the end of the text, or just before a final
newline. -/
def dollarAt (s : List Char) : Bool := s.isEmpty || s == ['\n']

/-- The lookahead `(?=Step\s*\d+)`. -/
def lookStep (s : List Char) : Bool :=
  match matchStepWord s with
  | some r =>
    match r.dropWhile pySpace with
    | c :: _ => c.isDigit
    | [] => false
  | none => false

/-- The lookahead `(?=\d+[:\.\)])`. -/
def lookNum (s : List Char) : Bool :=
  if (s.takeWhile Char.isDigit).isEmpty then false
  else
    match s.dropWhile Char.isDigit with
    | c :: _ => stepPunct c
    | [] => false

/-- The lazy group `(.+?)(?=look|$)`: consume at least one character and
stop at the first position where the lookahead or `$` holds. -/
def lazyContent (look : List Char → Bool) : List Char → Option (List Char × List Char)
  | [] => none
  | c :: t =>
    if look t || dollarAt t then some ([c], t)
    else
      match lazyContent look t with
      | some p => some (c :: p.1, p.2)
      | none => none

/-- `\s*(.+?)(?=look|$)` after the step punctuation: greedy whitespace, then
the lazy content; when the remaining text is whitespace only, `\s*`
backtracks by one character, which becomes the content (followed by `$`). -/
def contentAfterWs (look : List Char → Bool) (r : List Char) :
    Option (List Char × List Char) :=
  match lazyContent look (r.dropWhile pySpace) with
  | some p => some p
  | none =>
    match (r.takeWhile pySpace).getLast? with
    | some wlast => some ([wlast], [])
    | none => none

/-- The captured groups of a step match: number text and content text. -/
structure StepMatch where
  num : List Char
  content : List Char
deriving DecidableEq

/-- Anchored matcher for `Step\s*(\d+)[:\.\)]\s*(.+?)(?=Step\s*\d+|$)`. -/
def matchStep1 (l : List Char) : Option (StepMatch × List Char) :=
  match matchStepWord l with
  | none => none
  | some r1 =>
    let r2 := r1.dropWhile pySpace
    if (r2.takeWhile Char.isDigit).isEmpty then none
    else
      match r2.dropWhile Char.isDigit with
      | p :: r4 =>
        if stepPunct p then
          match contentAfterWs lookStep r4 with
          | some pr => some (⟨r2.takeWhile Char.isDigit, pr.1⟩, pr.2)
          | none => none
        else none
      | [] => none

/-- Anchored matcher for `(\d+)[:\.\)]\s*(.+?)(?=\d+[:\.\)]|$)`. -/
def matchStep2 (l : List Char) : Option (StepMatch × List Char) :=
  if (l.takeWhile Char.isDigit).isEmpty then none
  else
    match l.dropWhile Char.isDigit with
    | p :: r2 =>
      if stepPunct p then
        match contentAfterWs lookNum r2 with
        | some pr => some (⟨l.takeWhile Char.isDigit, pr.1⟩, pr.2)
        | none => none
      else none
    | [] => none

/-- One extracted step: `{'number': int(num), 'content': content.strip()}`. -/
structure SolStep where
  number : ℕ
  content : String
deriving DecidableEq

/-- Python `int(...)` on a digit string. -/
def digitsToNat (ds : List Char) : ℕ :=
  ds.foldl (fun n c => 10 * n + (c.toNat - '0'.toNat)) 0

/-- Build a step record from a match. -/
def mkStep (m : StepMatch) : SolStep :=
  { number := digitsToNat m.num, content := String.mk (pyStrip m.content) }

/-- `ProblemSolver._extract_steps(text)`: the `Step N` shape first, the bare
`N:` shape only when the first yields no matches, never both. -/
def extract_steps (text : String) : List SolStep :=
  match findIter matchStep1 text.data with
  | [] => (findIter matchStep2 text.data).map fun m => mkStep m.1
  | ms => ms.map fun m => mkStep m.1

/-- C9.  Step extraction tries exactly the two numbered-list shapes in
order — `Step N` first, the bare `N:` shape only if the first yields no
matches, never merging both — and each produced step carries the integer
parsed from the matched text together with the trimmed content, in match
order; in particular `"Step 1: Add 2 and 3\nStep 2: Multiply by 4"` yields
exactly steps `1, "Add 2 and 3"` and `2, "Multiply by 4"`. -/
theorem C9_step_extraction :
    extract_steps "Step 1: Add 2 and 3\nStep 2: Multiply by 4"
      = [⟨1, "Add 2 and 3"⟩, ⟨2, "Multiply by 4"⟩] ∧
    (∀ t : String, extract_steps t =
      if (findIter matchStep1 t.data).isEmpty
      then (findIter matchStep2 t.data).map fun m => mkStep m.1
      else (findIter matchStep1 t.data).map fun m => mkStep m.1) := by
  refine ⟨by decide, fun t => ?_⟩
  unfold extract_steps
  cases h : findIter matchStep1 t.data with
  | nil => simp [h]
  | cons m ms => simp [h]

/-- The backtracking case of the `equation_result` pattern: on `"x = = 5"`
(whitespace-only middle) the middle group captures the whitespace character
handed back by `\s*`, and the scanner appends an `equation_result` entry
whose expression strips to the empty string and therefore fails to verify —
exactly as the program does. -/
theorem matchEqRes_whitespace_only_middle :
    (findIter matchEqRes "x = = 5".data).map
      (fun m => (m.1.v, String.mk m.1.expr, String.mk m.1.res, String.mk m.2))
      = [('x', " ", "5", "x = = 5")] ∧
    (verify_solution_steps (fun n : ℕ => toString n) (fun _ => none) "" "x = = 5").map
      (fun v => (v.kind, v.result.verified))
      = [("equation_result", false)] := by
  decide
